import Mathlib

/-!
Shallow embedding of the audio transcoding and session-bridging pipeline
of the restaurant voice agent (src/index.js), together with theorems
settling the specification's claims about it.

Conventions of the embedding:
* JS numbers used as integers become `Int`/`Nat`; buffer bytes become `Nat`
  values below 256; floating-point audio samples are idealized as exact
  rationals `ℚ` (the code's arithmetic on them is ordinary field
  arithmetic plus `Math.floor`, `Math.min`, `Math.max`).
* base64 transport encoding and little-endian 16-bit serialization are
  abstracted: a decoded audio buffer is its list of samples.
* The per-connection event handlers of `wss.on("connection")` are pure
  functions from an incoming event to the effects the handler performs
  (messages sent on each socket, close calls issued).
-/

/-- Bitwise complement of one byte: JS `~n & 0xff` for a byte-range `n`
(all call sites in src/index.js complement values below 256). -/
def bnot8 (n : Nat) : Nat := Nat.xor n 0xff

/-- Exponent-search loop of `linearToMuLawSample` (src/index.js:20-22):
`for (let expMask = 0x4000; (sample & expMask) === 0 && exponent > 0; expMask >>= 1) exponent--;`
The second argument is the current mask, the third the current exponent. -/
def findExponent (sample : Nat) : Nat → Nat → Nat
  | _, 0 => 0
  | mask, e + 1 =>
    if Nat.land sample mask = 0 then findExponent sample (mask / 2) e else e + 1

/-- `linearToMuLawSample` (src/index.js:13-26): clamp to ±32635, extract
sign, scan for the exponent from mask 0x4000 downward, take a 4-bit
mantissa, assemble sign|exponent|mantissa and complement the byte. -/
def linearToMuLawSample (sample : Int) : Nat :=
  let s := max (-32635) (min 32635 sample)
  let sign : Nat := if s < 0 then 0x80 else 0
  let mag : Nat := (if s < 0 then -s else s).toNat
  let exponent := findExponent mag 0x4000 7
  let mantissa := Nat.land (mag >>> (if exponent = 0 then 4 else exponent + 3)) 0x0f
  bnot8 (Nat.lor sign (Nat.lor (exponent <<< 4) mantissa))

/-- `muLawToLinear` (src/index.js:28-35): complement the byte, split into
sign, 3-bit exponent and 4-bit mantissa, reconstruct the magnitude as
`((mantissa << 4) + 8) << (exponent + 3)`, negate on sign. -/
def muLawToLinear (mu : Nat) : Int :=
  let m := bnot8 mu
  let sign := Nat.land m 0x80
  let exponent := Nat.land (m >>> 4) 0x07
  let mantissa := Nat.land m 0x0f
  let sample : Nat := ((mantissa <<< 4) + 8) <<< (exponent + 3)
  if sign ≠ 0 then -(sample : Int) else (sample : Int)

/-- Modelled from the spec: the standard G.711 μ-law expansion (the
companding table's decode direction, CCITT reference formula on the
16-bit convention), which the spec requires the codec to reproduce
byte-for-byte. Not part of src/: it is the comparison point named by the
spec as "the standard G.711 μ-law companding table". -/
def g711ExpandStd (b : Nat) : Int :=
  let u := bnot8 b
  let sign := Nat.land u 0x80
  let exponent := Nat.land (u >>> 4) 0x07
  let t : Nat := ((Nat.land u 0x0f) <<< 3) + 0x84
  let t2 : Nat := t <<< exponent
  if sign ≠ 0 then (0x84 : Int) - (t2 : Int) else (t2 : Int) - 0x84

/-- Modelled from the spec: the standard G.711 μ-law compression (the
companding table's encode direction, CCITT reference formula with bias
0x84 on the 16-bit convention), the table the spec requires the encoder
to reproduce. Not part of src/. -/
def g711CompressStd (sample : Int) : Nat :=
  let s := max (-32635) (min 32635 sample)
  let sign : Nat := if s < 0 then 0x80 else 0
  let mag : Nat := (if s < 0 then -s else s).toNat + 0x84
  let exponent := findExponent mag 0x4000 7
  let mantissa := Nat.land (mag >>> (exponent + 3)) 0x0f
  bnot8 (Nat.lor sign (Nat.lor (exponent <<< 4) mantissa))

/-- JS ToInt16 coercion: what happens when a number already truncated to an
integer is stored into an `Int16Array` slot (src/index.js:199 stores
`muLawToLinear(...)`, which can exceed the 16-bit range, into `pcm16[i]`). -/
def toInt16 (n : Int) : Int :=
  let m := Int.emod n 65536
  if 32768 ≤ m then m - 65536 else m

/-- Truncation toward zero of a rational, the integer conversion JS applies
when a fractional number is written into an integer-typed buffer slot. -/
def ratTrunc (q : ℚ) : Int := if q < 0 then -(Int.floor (-q)) else Int.floor q

/-- `resampleLinear` (src/index.js:41-57) over exact rationals: identity on
equal rates, otherwise `outLen = floor(len * ratio)` output points, each a
linear interpolation of the two bracketing input samples with the upper
index clamped to the last valid index. Out-of-range reads (unreachable for
positive rates) are modelled as 0. -/
def resampleLinear (input : List ℚ) (fromRate toRate : ℚ) : List ℚ :=
  if fromRate = toRate then input
  else
    let ratio := toRate / fromRate
    let outLen := (Int.floor ((input.length : ℚ) * ratio)).toNat
    (List.range outLen).map (fun (i : Nat) =>
      let srcIndex := (i : ℚ) / ratio
      let i0 := Int.floor srcIndex
      let i1 := min (i0 + 1) ((input.length : Int) - 1)
      let t := srcIndex - (i0 : ℚ)
      (1 - t) * input.getD i0.toNat 0 + t * input.getD i1.toNat 0)

/-- Downlink codec/resample chain (src/index.js:144-165), base64 and
little-endian byte framing abstracted: from the list of decoded signed
16-bit samples of the model's audio delta to the companded byte sequence
(before the 160-byte padding stage). -/
def downlinkCompanded (pcm : List Int) : List Nat :=
  let pcmFloat : List ℚ := pcm.map (fun v => (v : ℚ) / 32768)
  let pcm8 := resampleLinear pcmFloat 24000 8000
  let pcm16 := pcm8.map (fun x => ratTrunc (max (-1) (min 1 x) * 32767))
  pcm16.map (fun v => linearToMuLawSample v)

/-- Model of `mu.copy(padded)` after `Buffer.alloc(160)` (src/index.js:169-170):
the source bytes overwrite the zero-filled destination from position 0. -/
def bufCopyInto (src dst : List Nat) : List Nat := src ++ dst.drop src.length

/-- Padding stage (src/index.js:168-172): companded sequences shorter than
160 bytes are copied into a fresh zero-filled 160-byte buffer. -/
def padFrame (mu : List Nat) : List Nat :=
  if mu.length < 160 then bufCopyInto mu (List.replicate 160 0) else mu

/-- Full downlink transform: companded bytes actually transmitted to the
telephony side for one model audio delta. -/
def downlinkFrame (pcm : List Int) : List Nat := padFrame (downlinkCompanded pcm)

/-- Uplink transform (src/index.js:194-215), base64 and little-endian byte
framing abstracted: from the companded payload bytes of one telephony media
event to the list of signed 16-bit samples appended to the model's input
audio buffer. The `toInt16` step is the `Int16Array` store of the decoded
(possibly out-of-range) linear sample. -/
def uplinkAudio (mulawBuf : List Nat) : List Int :=
  let pcm16 := mulawBuf.map (fun b => toInt16 (muLawToLinear b))
  let pcmFloat := pcm16.map (fun v => (v : ℚ) / 32768)
  let pcm24 := resampleLinear pcmFloat 8000 24000
  pcm24.map (fun x => ratTrunc (max (-1) (min 1 x) * 32767))

/-- Messages the session sends on the model-side socket. The greeting and
the per-media response request are the same JSON object
(`{type:"response.create", response:{modalities:["audio"]}}`), so both are
the single constructor `responseCreate`. -/
inductive AiOut where
  | sessionUpdate
  | responseCreate
  | append (audio : List Int)
  | commit
deriving DecidableEq

/-- Messages the session sends on the telephony-side socket. -/
inductive TelOut where
  | mediaFrame (payload : List Nat)
deriving DecidableEq

/-- Parsed inbound telephony messages (src/index.js:184-235). `malformed`
is a message `JSON.parse` rejects; `other` is parseable JSON whose `event`
matches no branch. -/
inductive TelIn where
  | start
  | media (payload : List Nat)
  | stop
  | other
  | malformed
deriving DecidableEq

/-- Parsed inbound model-side messages (src/index.js:133-179). `audioDelta`
covers both accepted event type names (`response.audio.delta` and
`response.output_audio.delta`), carrying the decoded sample list. -/
inductive AiIn where
  | audioDelta (pcm : List Int)
  | other
  | malformed
deriving DecidableEq

/-- Events a session reacts to: the model socket opening, a message from
either side, either side closing, or a model-side error. -/
inductive Ev where
  | aiOpen
  | fromAi (m : AiIn)
  | fromTel (m : TelIn)
  | telClose
  | aiClosed
  | aiError
deriving DecidableEq

/-- Effects one handler invocation performs, in order: send calls issued on
the model-side socket, send calls issued on the telephony-side socket,
whether `ai.close()` is called, whether `ws.close()` is called. -/
structure Eff where
  aiSends : List AiOut
  telSends : List TelOut
  closesAi : Bool
  closesTel : Bool
deriving DecidableEq

/-- Model-side `open` handler (src/index.js:74-96): send the
`session.update` configuration, then the forced greeting
`response.create`. Nothing else: there is no queue to flush. -/
def handleAiOpen : Eff := ⟨[AiOut.sessionUpdate, AiOut.responseCreate], [], false, false⟩

/-- Model-side `message` handler (src/index.js:133-179): an audio delta is
transformed by the downlink chain and one media frame is sent to the
telephony side; everything else (including unparseable JSON) is dropped. -/
def handleAiMessage : AiIn → Eff
  | AiIn.audioDelta pcm => ⟨[], [TelOut.mediaFrame (downlinkFrame pcm)], false, false⟩
  | AiIn.other => ⟨[], [], false, false⟩
  | AiIn.malformed => ⟨[], [], false, false⟩

/-- Telephony-side `message` handler (src/index.js:184-235): a media event
sends `input_audio_buffer.append`, `input_audio_buffer.commit` and
`response.create` to the model side, immediately and unconditionally (the
code never consults any readiness state and keeps no queue); `stop` calls
`ai.close()`; `start`, unknown events and unparseable JSON do nothing. -/
def handleTelMessage : TelIn → Eff
  | TelIn.media p =>
      ⟨[AiOut.append (uplinkAudio p), AiOut.commit, AiOut.responseCreate], [], false, false⟩
  | TelIn.stop => ⟨[], [], true, false⟩
  | TelIn.start => ⟨[], [], false, false⟩
  | TelIn.other => ⟨[], [], false, false⟩
  | TelIn.malformed => ⟨[], [], false, false⟩

/-- Telephony-side `close` handler (src/index.js:237-240): closes the
model side inside try/catch, so an already-closed model socket raises
nothing. -/
def handleTelClose : Eff := ⟨[], [], true, false⟩

/-- Model-side `close` handler (src/index.js:99): logs only. -/
def handleAiClosed : Eff := ⟨[], [], false, false⟩

/-- Model-side `error` handler (src/index.js:98): logs only. -/
def handleAiError : Eff := ⟨[], [], false, false⟩

/-- Dispatch of one event to its handler. -/
def handleEvent : Ev → Eff
  | Ev.aiOpen => handleAiOpen
  | Ev.fromAi m => handleAiMessage m
  | Ev.fromTel m => handleTelMessage m
  | Ev.telClose => handleTelClose
  | Ev.aiClosed => handleAiClosed
  | Ev.aiError => handleAiError

/-- Model-side send calls issued over a whole run, in issue order: since
every handler is stateless, the run trace is the in-order concatenation of
the per-event send lists. -/
def aiTrace : List Ev → List AiOut
  | [] => []
  | e :: es => (handleEvent e).aiSends ++ aiTrace es

/-- Whether any handler in a run ever calls `ws.close()` on the telephony
side. -/
def closesTelDuring : List Ev → Bool
  | [] => false
  | e :: es => (handleEvent e).closesTel || closesTelDuring es

/-- Well-formedness of a model-side send trace: every
`input_audio_buffer.commit` is immediately preceded by its
`input_audio_buffer.append` and immediately followed by its
`response.create`. -/
def commitsWellFormed : List AiOut → Bool
  | [] => true
  | AiOut.append _ :: AiOut.commit :: AiOut.responseCreate :: rest => commitsWellFormed rest
  | AiOut.commit :: _ => false
  | _ :: rest => commitsWellFormed rest

/-! Helper lemmas. -/

/-- The exponent-search loop never returns more than its starting exponent. -/
theorem findExponent_le (s : Nat) : ∀ e mask, findExponent s mask e ≤ e
  | 0, _ => Nat.le_refl 0
  | e + 1, mask => by
    simp only [findExponent]
    split
    · exact Nat.le_trans (findExponent_le s e (mask / 2)) (Nat.le_succ e)
    · exact Nat.le_refl (e + 1)

/-- Complementing a byte with the sign bit forced on equals complementing
without it and toggling the sign bit, for payloads below the sign bit. -/
theorem bnot8_lor_signbit : ∀ v : Nat, v < 128 →
    bnot8 (Nat.lor 0x80 v) = Nat.xor (bnot8 (Nat.lor 0 v)) 0x80 := by decide

/-- The assembled exponent-mantissa payload of the encoder stays below the
sign bit. -/
theorem encPayload_lt (e x : Nat) (he : e ≤ 7) :
    Nat.lor (e <<< 4) (Nat.land x 0x0f) < 128 := by
  have h1 : e <<< 4 < 128 := by
    have : e <<< 4 = e * 16 := by simp [Nat.shiftLeft_eq, Nat.pow_succ]
    omega
  have h2 : Nat.land x 0x0f < 128 := by
    have : Nat.land x 0x0f ≤ 0x0f := Nat.and_le_right
    omega
  have := Nat.or_lt_two_pow (n := 7) (by simpa using h1) (by simpa using h2)
  simpa using this

/-- Dropping from a replicated list replicates the remainder. -/
theorem drop_replicate (a : Nat) : ∀ n m, (List.replicate n a).drop m = List.replicate (n - m) a
  | n, 0 => by simp
  | 0, m + 1 => by simp
  | n + 1, m + 1 => by
    simp [List.replicate_succ, drop_replicate a n m]

/-- No handler of the session ever sends anything but the configuration
pair or a media triple on the model side. -/
theorem handleEvent_aiSends_shape (e : Ev) :
    (handleEvent e).aiSends = []
  ∨ (handleEvent e).aiSends = [AiOut.sessionUpdate, AiOut.responseCreate]
  ∨ ∃ a, (handleEvent e).aiSends = [AiOut.append a, AiOut.commit, AiOut.responseCreate] := by
  cases e with
  | aiOpen => exact Or.inr (Or.inl rfl)
  | fromAi m => cases m <;> exact Or.inl rfl
  | fromTel m =>
    cases m with
    | media p => exact Or.inr (Or.inr ⟨uplinkAudio p, rfl⟩)
    | start => exact Or.inl rfl
    | stop => exact Or.inl rfl
    | other => exact Or.inl rfl
    | malformed => exact Or.inl rfl
  | telClose => exact Or.inl rfl
  | aiClosed => exact Or.inl rfl
  | aiError => exact Or.inl rfl

/-- Prepending the configuration pair preserves commit well-formedness. -/
theorem commitsWellFormed_config (rest : List AiOut) :
    commitsWellFormed (AiOut.sessionUpdate :: AiOut.responseCreate :: rest) =
      commitsWellFormed rest := by
  simp [commitsWellFormed]

/-- Prepending one whole media triple preserves commit well-formedness. -/
theorem commitsWellFormed_unit (a : List Int) (rest : List AiOut) :
    commitsWellFormed (AiOut.append a :: AiOut.commit :: AiOut.responseCreate :: rest) =
      commitsWellFormed rest := by
  simp [commitsWellFormed]

/-- Every model-side send trace of a run is commit well-formed. -/
theorem aiTrace_commitsWellFormed : ∀ es, commitsWellFormed (aiTrace es) = true := by
  intro es
  induction es with
  | nil => rfl
  | cons e es ih =>
    rcases handleEvent_aiSends_shape e with h | h | ⟨a, h⟩ <;>
      simp [aiTrace, h, commitsWellFormed_config, commitsWellFormed_unit, ih]

/-- No handler ever calls `ws.close()` on the telephony side. -/
theorem handleEvent_closesTel (e : Ev) : (handleEvent e).closesTel = false := by
  cases e with
  | aiOpen => rfl
  | fromAi m => cases m <;> rfl
  | fromTel m => cases m <;> rfl
  | telClose => rfl
  | aiClosed => rfl
  | aiError => rfl

/-! Claim theorems. -/

/-- C1: evaluation of the codec against the standard G.711 companding
table at the spec's reference vectors. Encoding silence agrees
(encode(0) = 0xFF), but the decoder maps the silence byte 0xFF to 64 where
the standard expansion table gives 0, and the encoder (which omits the
standard 0x84 bias) maps sample 50 to 0xFC where the standard table's
canonical byte is 0xF9: the codec does not reproduce the standard table. -/
theorem c1_codec_vs_standard_table :
    (linearToMuLawSample 0 = 0xff ∧ g711CompressStd 0 = 0xff)
  ∧ (muLawToLinear 0xff = 64 ∧ g711ExpandStd 0xff = 0)
  ∧ (linearToMuLawSample 50 = 0xfc ∧ g711CompressStd 50 = 0xf9) := by
  exact ⟨⟨by decide, by decide⟩, ⟨by decide, by decide⟩, ⟨by decide, by decide⟩⟩

/-- C2 counterexample: a media event arriving before the model-side open is
not queued. For the run [media, open] the model-side send calls are issued
as append, commit, response.create, session.update, response.create — not
in the configuration-then-flush order the claim requires. -/
theorem c2_media_before_open_not_queued :
    aiTrace [Ev.fromTel (TelIn.media []), Ev.aiOpen] =
      [AiOut.append (uplinkAudio []), AiOut.commit, AiOut.responseCreate,
        AiOut.sessionUpdate, AiOut.responseCreate]
  ∧ aiTrace [Ev.fromTel (TelIn.media []), Ev.aiOpen] ≠
      [AiOut.sessionUpdate, AiOut.responseCreate,
        AiOut.append (uplinkAudio []), AiOut.commit, AiOut.responseCreate] := by
  exact ⟨by with_unfolding_all decide, by with_unfolding_all decide⟩

/-- C2 as amended: the session keeps no pending queue. A telephony media
event always has its three-part unit sent to the model side immediately,
at the head of the remaining trace, and the model-side open handler sends
exactly the configuration message and the greeting request, flushing
nothing. -/
theorem c2_no_queue_immediate_send :
    handleAiOpen.aiSends = [AiOut.sessionUpdate, AiOut.responseCreate]
  ∧ ∀ (p : List Nat) (es : List Ev),
      aiTrace (Ev.fromTel (TelIn.media p) :: es) =
        AiOut.append (uplinkAudio p) :: AiOut.commit :: AiOut.responseCreate :: aiTrace es :=
  ⟨rfl, fun _ _ => rfl⟩

/-- C3: a telephony media event makes the session send exactly the three
messages append, commit, response.create to the model side, immediately
and in that order, and in every run each commit is immediately preceded by
its append and immediately followed by its response.create. -/
theorem c3_media_triple_order :
    (∀ p : List Nat, (handleTelMessage (TelIn.media p)).aiSends =
      [AiOut.append (uplinkAudio p), AiOut.commit, AiOut.responseCreate])
  ∧ ∀ es : List Ev, commitsWellFormed (aiTrace es) = true :=
  ⟨fun _ => rfl, aiTrace_commitsWellFormed⟩

/-- C4 counterexample: when the model side closes or errors, the session
does nothing at all — in particular it does not close the still-open
telephony connection, contradicting the claimed cascade teardown. -/
theorem c4_model_close_no_cascade :
    handleEvent Ev.aiClosed = ⟨[], [], false, false⟩
  ∧ handleEvent Ev.aiError = ⟨[], [], false, false⟩ :=
  ⟨rfl, rfl⟩

/-- C4 as amended: teardown is one-directional. A telephony stop event and
a telephony close both close the model-side connection (the close handler
wraps the call in try/catch, so closing an already-closed model socket
raises nothing), but no handler in any run ever closes the telephony side,
and there is no pending queue to discard. -/
theorem c4_teardown_one_directional :
    (handleEvent (Ev.fromTel TelIn.stop)).closesAi = true
  ∧ (handleEvent Ev.telClose).closesAi = true
  ∧ ∀ es : List Ev, closesTelDuring es = false := by
  refine ⟨rfl, rfl, ?_⟩
  intro es
  induction es with
  | nil => rfl
  | cons e es ih => simp [closesTelDuring, handleEvent_closesTel, ih]

/-- C5: the transmitted downlink frame is always the companded sequence
with zero bytes appended up to 160 (no appended bytes when it is already
at least 160 long), so short sequences are right-padded to exactly 160
with their bytes kept as an unchanged prefix and longer sequences pass
through unchanged — never truncated. -/
theorem c5_pad_never_truncate (pcm : List Int) :
    downlinkFrame pcm =
      downlinkCompanded pcm ++
        List.replicate (160 - (downlinkCompanded pcm).length) 0
  ∧ (downlinkFrame pcm).length = max (downlinkCompanded pcm).length 160 := by
  unfold downlinkFrame padFrame bufCopyInto
  by_cases h : (downlinkCompanded pcm).length < 160
  · rw [if_pos h]
    constructor
    · rw [drop_replicate]
    · simp
      omega
  · rw [if_neg h]
    constructor
    · have h0 : 160 - (downlinkCompanded pcm).length = 0 := by omega
      simp [h0]
    · omega

/-- C6 counterexample: the companded byte 0x80 decodes to 253952, far
outside the 16-bit sample range [-32768, 32767] the claim asserts. -/
theorem c6_decode_escapes_int16 :
    muLawToLinear 0x80 = 253952 ∧ ¬ muLawToLinear 0x80 ≤ 32767 := by
  exact ⟨by decide, by decide⟩

set_option maxRecDepth 2048 in
/-- C6 as amended: for every byte, the decoder's output lies in
[-253952, 253952] (both bounds attained, at bytes 0x00 and 0x80), not in
the 16-bit range [-32768, 32767]. -/
theorem c6_decode_range (b : Nat) (h : b < 256) :
    -253952 ≤ muLawToLinear b ∧ muLawToLinear b ≤ 253952 := by
  revert h
  revert b
  decide

/-- C6 witness: the amended range bound instantiated at byte 128. -/
theorem c6_decode_range_witness :
    128 < 256 ∧ (-253952 ≤ muLawToLinear 128 ∧ muLawToLinear 128 ≤ 253952) :=
  ⟨by decide, c6_decode_range 128 (by decide)⟩

/-- C7: evaluation of the round trip at sample 300. The code encodes 300
into segment 1 (quantization step 16) but decodes back to 640, an error of
340, far beyond one quantization step; the standard G.711 table
(spec-modelled) round-trips 300 to 308, within one step. -/
theorem c7_roundtrip_error_unbounded :
    muLawToLinear (linearToMuLawSample 300) = 640
  ∧ g711ExpandStd (g711CompressStd 300) = 308 := by
  exact ⟨by decide, by decide⟩

/-- C8 counterexample: the downlink transform applied to an empty input
does not produce empty output — the padding stage turns the empty
companded sequence into a 160-byte all-zero frame. -/
theorem c8_downlink_empty_is_padded :
    downlinkFrame [] = List.replicate 160 0 ∧ downlinkFrame [] ≠ [] := by
  exact ⟨by with_unfolding_all decide, by with_unfolding_all decide⟩

/-- C8 as amended: both transforms tolerate empty input without error; the
uplink transform and the downlink codec/resample chain produce empty
output, and the downlink frame stage then zero-pads that empty sequence to
the fixed 160-byte frame. -/
theorem c8_empty_input_tolerated :
    uplinkAudio [] = [] ∧ downlinkCompanded [] = []
  ∧ downlinkFrame [] = List.replicate 160 0 := by
  exact ⟨by with_unfolding_all decide, by with_unfolding_all decide,
    by with_unfolding_all decide⟩

/-- C9: for positive rates the resampler's output length is exactly
floor(inputLength * toRate / fromRate), on the equal-rate identity path
and on the interpolating path alike. -/
theorem c9_resample_length (x : List ℚ) (f t : ℚ) (hf : 0 < f) (ht : 0 < t) :
    ((resampleLinear x f t).length : Int) = Int.floor ((x.length : ℚ) * (t / f)) := by
  by_cases hft : f = t
  · subst hft
    rw [div_self hf.ne']
    simp [resampleLinear]
  · have hlen : (resampleLinear x f t).length =
        (Int.floor ((x.length : ℚ) * (t / f))).toNat := by
      unfold resampleLinear
      rw [if_neg hft]
      simp only [List.length_map, List.length_range]
    rw [hlen]
    have h0 : (0 : ℚ) ≤ (x.length : ℚ) * (t / f) :=
      mul_nonneg (Nat.cast_nonneg _) (div_nonneg ht.le hf.le)
    exact Int.toNat_of_nonneg (Int.floor_nonneg.mpr h0)

/-- C9 witness: three samples resampled from 24 kHz to 8 kHz give
floor(3/3) = 1 output sample. -/
theorem c9_resample_length_witness :
    (0 : ℚ) < 24000 ∧ (0 : ℚ) < 8000
  ∧ ((resampleLinear [0, 0, 0] 24000 8000).length : Int) =
      Int.floor ((([0, 0, 0] : List ℚ).length : ℚ) * (8000 / 24000)) :=
  ⟨by norm_num, by norm_num,
    c9_resample_length [0, 0, 0] 24000 8000 (by norm_num) (by norm_num)⟩

/-- C10: negating a sample in [1, 32767] flips exactly the sign bit of the
companded byte (the encoder clamps magnitudes beyond 32635, symmetrically
on both sides). -/
theorem c10_encoder_sign_symmetry (s : Int) (h1 : 1 ≤ s) (h2 : s ≤ 32767) :
    linearToMuLawSample (-s) = Nat.xor (linearToMuLawSample s) 0x80 := by
  have hmax1 : max (-32635) (min 32635 s) = min 32635 s := by omega
  have hmax2 : max (-32635) (min 32635 (-s)) = -(min 32635 s) := by omega
  have hlt1 : ¬ (min 32635 s < 0) := by omega
  have hlt2 : -(min 32635 s) < 0 := by omega
  simp only [linearToMuLawSample, hmax1, hmax2, if_neg hlt1, if_pos hlt2, neg_neg]
  have he : findExponent (min 32635 s).toNat 0x4000 7 ≤ 7 :=
    findExponent_le (min 32635 s).toNat 7 0x4000
  have hv := encPayload_lt (findExponent (min 32635 s).toNat 0x4000 7)
    ((min 32635 s).toNat >>>
      (if findExponent (min 32635 s).toNat 0x4000 7 = 0 then 4
        else findExponent (min 32635 s).toNat 0x4000 7 + 3)) he
  exact bnot8_lor_signbit _ hv

/-- C10 witness: the sign-bit symmetry instantiated at sample 300. -/
theorem c10_encoder_sign_symmetry_witness :
    (1 : Int) ≤ 300 ∧ (300 : Int) ≤ 32767
  ∧ linearToMuLawSample (-300) = Nat.xor (linearToMuLawSample 300) 0x80 :=
  ⟨by decide, by decide, c10_encoder_sign_symmetry 300 (by decide) (by decide)⟩
